import Mathlib

/-!
Verification of the AP election data reconciliation and classification core
(`parser.py`): a shallow embedding of the Python functions `get_vote_info`,
`is_ballot_measure`, `parse_candidate`, `parse_race`, `parse_results` and
`categorize_races` over a JSON value model with explicit Python exception
semantics, followed by theorems about the embedded definitions.
-/

/-- JSON values as delivered by the upstream feeds.  Python dicts are
represented as association lists (dict keys are unique strings; insertion
order is list order); numbers as rationals. -/
inductive JSON where
  | null
  | bool (b : Bool)
  | num (q : Rat)
  | str (s : String)
  | arr (elems : List JSON)
  | obj (fields : List (String × JSON))

/-- Python exceptions that the embedded code can raise. -/
inductive PyExc where
  | keyError (k : String)
  | typeError
  | attributeError
  | valueError
deriving DecidableEq

/-- Python subscript `d[k]` with a string key: dict lookup (KeyError when the
key is absent); subscripting any non-dict value with a string key raises
TypeError. -/
def pySubscr (j : JSON) (k : String) : Except PyExc JSON :=
  match j with
  | .obj fields =>
    match fields.lookup k with
    | some v => .ok v
    | none => .error (.keyError k)
  | _ => .error .typeError

/-- Python subscript `d[key]` where the key is itself a feed value.  JSON
object keys are strings, so only a string key can match; unhashable keys
(lists, dicts) raise TypeError, other hashable non-string keys miss
(KeyError).  Integer indexing of lists is not modelled: the feeds subscript
only candidate dictionaries here. -/
def pySubscrKey (j : JSON) (key : JSON) : Except PyExc JSON :=
  match j with
  | .obj fields =>
    match key with
    | .str k =>
      match fields.lookup k with
      | some v => .ok v
      | none => .error (.keyError k)
    | .arr _ => .error .typeError
    | .obj _ => .error .typeError
    | _ => .error (.keyError "")
  | _ => .error .typeError

/-- Python `d.get(k, default)`: total on dicts, AttributeError on any
non-dict receiver (no non-dict JSON value has a `get` attribute). -/
def pyGet (j : JSON) (k : String) (dflt : JSON) : Except PyExc JSON :=
  match j with
  | .obj fields => .ok ((fields.lookup k).getD dflt)
  | _ => .error .attributeError

/-- Whether the first character list starts the second. -/
def listStartsWith : List Char → List Char → Bool
  | [], _ => true
  | _ :: _, [] => false
  | a :: as, b :: bs => a == b && listStartsWith as bs

/-- Whether the first character list occurs contiguously in the second. -/
def listHasInfix (needle : List Char) : List Char → Bool
  | [] => needle.isEmpty
  | b :: bs => listStartsWith needle (b :: bs) || listHasInfix needle bs

/-- Python `k in d` for a string `k`: dict key membership, substring test on
strings, element comparison on lists; `in` on a non-container raises
TypeError. -/
def pyContains (k : String) (j : JSON) : Except PyExc Bool :=
  match j with
  | .obj fields => .ok (fields.lookup k).isSome
  | .str s => .ok (listHasInfix k.data s.data)
  | .arr elems => .ok (elems.any fun e => match e with | .str t => t == k | _ => false)
  | _ => .error .typeError

/-- ASCII lower-casing of a string, character by character (the feeds carry
ASCII names; models Python `str.lower` on that fragment). -/
def strLower (s : String) : String :=
  String.mk (s.data.map Char.toLower)

/-- Python `v.lower()`: defined on strings only. -/
def pyLower (j : JSON) : Except PyExc String :=
  match j with
  | .str s => .ok (strLower s)
  | _ => .error .attributeError

/-- Whitespace tokenizer: accumulates the current token (reversed) and emits
tokens at whitespace runs, dropping empty ones — Python `str.split()` with no
separator. -/
def splitWsAux : List Char → List Char → List String
  | [], acc => if acc.isEmpty then [] else [String.mk acc.reverse]
  | c :: rest, acc =>
    if c.isWhitespace then
      if acc.isEmpty then splitWsAux rest []
      else String.mk acc.reverse :: splitWsAux rest []
    else splitWsAux rest (c :: acc)

/-- Python `v.split()` (no separator: split on whitespace runs, dropping
empty tokens): defined on strings only. -/
def pySplitWs (j : JSON) : Except PyExc (List String) :=
  match j with
  | .str s => .ok (splitWsAux s.data [])
  | _ => .error .attributeError

/-- Python `d.values()`: defined on dicts only. -/
def pyValues (j : JSON) : Except PyExc (List JSON) :=
  match j with
  | .obj fields => .ok (fields.map Prod.snd)
  | _ => .error .attributeError

/-- Python `v == s` for a string literal `s`: equality holds only between
strings, any other comparison is False (never an error). -/
def JSON.isStrEq (j : JSON) (s : String) : Bool :=
  match j with
  | .str t => t == s
  | _ => false

/-- Observer used in theorem statements: the value at key `k` when `j` is an
object containing it. -/
def JSON.lookupKey (j : JSON) (k : String) : Option JSON :=
  match j with
  | .obj fields => fields.lookup k
  | _ => none

/-- Python iteration `for x in j`: list elements, dict keys, string
characters; iterating anything else raises TypeError. -/
def pyIter (j : JSON) : Except PyExc (List JSON) :=
  match j with
  | .arr elems => .ok elems
  | .obj fields => .ok (fields.map (fun kv => JSON.str kv.1))
  | .str s => .ok (s.data.map (fun c => JSON.str (String.mk [c])))
  | _ => .error .typeError

/-- A Python list comprehension / generator evaluated left to right with
exception propagation. -/
def mapExcept (f : α → Except PyExc β) : List α → Except PyExc (List β)
  | [] => .ok []
  | x :: xs => do
    let y ← f x
    let ys ← mapExcept f xs
    .ok (y :: ys)

/-- The fixed keyword set `ElectionDataParser.BALLOT_MEASURE_KEYWORDS`. -/
def BALLOT_MEASURE_KEYWORDS : List String :=
  ["Amendment", "Issue", "Question", "Measure", "Proposition", "Prop"]

/-- Embeds `ElectionDataParser.get_vote_info`: probe
`data["parameters"]["vote"].get(field, default)`, catching KeyError and
TypeError; fall back to `data["vote"].get(field, default)` under the same
handler; else the default.  AttributeError (from `.get` on a non-dict) is not
caught by either handler, exactly as in the source. -/
def get_vote_info (data : JSON) (field : String) (dflt : JSON) : Except PyExc JSON :=
  match (do
      let p ← pySubscr data "parameters"
      let v ← pySubscr p "vote"
      pyGet v field dflt : Except PyExc JSON) with
  | .ok r => .ok r
  | .error (.keyError _) => get_vote_info_fallback data field dflt
  | .error .typeError => get_vote_info_fallback data field dflt
  | .error e => .error e
where
  /-- The second `try` block of `get_vote_info` with its own handler. -/
  get_vote_info_fallback (data : JSON) (field : String) (dflt : JSON) : Except PyExc JSON :=
    match (do
        let v ← pySubscr data "vote"
        pyGet v field dflt : Except PyExc JSON) with
    | .ok r => .ok r
    | .error (.keyError _) => .ok dflt
    | .error .typeError => .ok dflt
    | .error e => .error e

/-- Embeds `ElectionDataParser.is_ballot_measure`: OR of the `suppOfficeID
== "IME"` check, the office-name keyword token check, and the
yes/no–for/against candidate-name subset check, with Python's evaluation
order and exception behaviour. -/
def is_ballot_measure (race_meta : JSON) : Except PyExc Bool := do
  let supp ← pyGet race_meta "suppOfficeID" JSON.null
  if supp.isStrEq "IME" then
    pure true
  else
    let officeNameVal ← pyGet race_meta "officeName" (JSON.str "")
    let office_name ← pySplitWs officeNameVal
    if office_name.any (fun term => BALLOT_MEASURE_KEYWORDS.contains term) then
      pure true
    else
      let candidatesVal ← pyGet race_meta "candidates" (JSON.obj [])
      let candidates ← pyValues candidatesVal
      let candidate_names ← mapExcept (fun c => do
        let lastVal ← pyGet c "last" (JSON.str "")
        pyLower lastVal) candidates
      if (["yes", "no"].all fun s => candidate_names.contains s) ||
         (["for", "against"].all fun s => candidate_names.contains s) then
        pure true
      else
        pure false

/-- A parsed timestamp, carrying its source string (`models.py` stores the
`datetime` opaquely; nothing downstream in the core inspects it). -/
structure PyDateTime where
  iso : String
deriving DecidableEq

/-- Shape check for ISO-8601 time-of-day with optional trailing offset
material (unvalidated tail, as the feeds' offsets are). -/
def validTimePart : List Char → Bool
  | h1 :: h2 :: ':' :: m1 :: m2 :: ':' :: s1 :: s2 :: _ =>
    h1.isDigit && h2.isDigit && m1.isDigit && m2.isDigit && s1.isDigit && s2.isDigit
  | _ => false

/-- Shape check for ISO-8601 `YYYY-MM-DD`, optionally followed by a `T` or
space separator and a time part.  Modelled from the spec: stands in for the
Python standard library's `datetime.fromisoformat` (outside this repository),
on the string shapes the feeds carry; it accepts the well-formed timestamps
used here and rejects malformed ones. -/
def validISO8601 (s : String) : Bool :=
  match s.data with
  | y1 :: y2 :: y3 :: y4 :: '-' :: mo1 :: mo2 :: '-' :: d1 :: d2 :: rest =>
    y1.isDigit && y2.isDigit && y3.isDigit && y4.isDigit &&
    mo1.isDigit && mo2.isDigit && d1.isDigit && d2.isDigit &&
    (match rest with
     | [] => true
     | sep :: timeRest => (sep == 'T' || sep == ' ') && validTimePart timeRest)
  | _ => false

/-- `datetime.fromisoformat`: TypeError on a non-string argument, ValueError
on a malformed string. -/
def datetime_fromisoformat (j : JSON) : Except PyExc PyDateTime :=
  match j with
  | .str s => if validISO8601 s then .ok ⟨s⟩ else .error .valueError
  | _ => .error .typeError

/-- The fields shared by both candidate variants (`base_args` in
`parse_candidate`); values are carried as received from the feeds, as the
Python dataclasses do. -/
structure CandBase where
  candidate_id : JSON
  party : JSON
  ballot_order : JSON
  vote_count : JSON
  vote_pct : JSON
  advance_total : JSON
  color_index : JSON

/-- `PersonCandidate` / `BallotOptionCandidate` from `models.py`. -/
inductive Candidate where
  | person (base : CandBase) (first_name last_name incumbent : JSON)
  | ballotOption (base : CandBase) (option_name : JSON)

/-- The fields shared by both race variants (`base_args` in `parse_race`). -/
structure RaceBase where
  race_id : String
  state_postal : JSON
  state_name : JSON
  race_type : JSON
  race_call_status : JSON
  office_name : JSON
  last_updated : PyDateTime
  precincts_reporting : JSON
  precincts_total : JSON
  precincts_reporting_pct : JSON
  expected_vote_pct : JSON
  total_votes : JSON
  registered_voters : JSON
  key_race : JSON

/-- `ElectionRace` / `BallotMeasure` from `models.py`. -/
inductive RaceRecord where
  | electionRace (base : RaceBase) (office_id : JSON) (candidates : List Candidate)
      (seat_name seat_num incumbent_id : JSON)
  | ballotMeasure (base : RaceBase) (description category summary designation : JSON)
      (candidates : List Candidate)

/-- The common-field record of either race variant. -/
def RaceRecord.base : RaceRecord → RaceBase
  | .electionRace b _ _ _ _ _ => b
  | .ballotMeasure b _ _ _ _ _ => b

/-- The candidate list of either race variant. -/
def RaceRecord.candidates : RaceRecord → List Candidate
  | .electionRace _ _ cs _ _ _ => cs
  | .ballotMeasure _ _ _ _ _ cs => cs

/-- Whether a reconciled record is the ballot-measure variant. -/
def RaceRecord.isMeasure : RaceRecord → Bool
  | .electionRace _ _ _ _ _ _ => false
  | .ballotMeasure _ _ _ _ _ _ => true

/-- Embeds `ElectionDataParser.parse_candidate`, in the source's evaluation
order: resolve the progress candidate id in the metadata candidate mapping,
build the shared `base_args`, then branch on the presence of a `first` key
in the metadata candidate. -/
def parse_candidate (prog_data meta_data : JSON) : Except PyExc Candidate := do
  let cand_id ← pySubscr prog_data "candidateID"
  let cands ← pySubscr meta_data "candidates"
  let meta_cand ← pySubscrKey cands cand_id
  let party ← pySubscr meta_cand "party"
  let ballot_order ← pySubscr meta_cand "ballotOrder"
  let vote_count ← pySubscr prog_data "voteCount"
  let vote_pct ← pySubscr prog_data "votePct"
  let advance_total ← pyGet prog_data "advanceTotal" JSON.null
  let color_index ← pyGet prog_data "colorIndex" JSON.null
  let base : CandBase :=
    ⟨cand_id, party, ballot_order, vote_count, vote_pct, advance_total, color_index⟩
  let hasFirst ← pyContains "first" meta_cand
  if hasFirst then
    let first_name ← pySubscr meta_cand "first"
    let last_name ← pySubscr meta_cand "last"
    let incumbent ← pyGet meta_cand "incumbent" (JSON.bool false)
    pure (.person base first_name last_name incumbent)
  else
    let option_name ← pySubscr meta_cand "last"
    pure (.ballotOption base option_name)

/-- Embeds `ElectionDataParser.parse_race`, in the source's evaluation
order: vote info, the `base_args` dict literal, the candidate list
comprehension, then the classifier deciding which variant to build. -/
def parse_race (race_id : String) (prog_data meta_data : JSON) : Except PyExc RaceRecord := do
  let total_votes ← get_vote_info meta_data "total" (JSON.num 0)
  let registered_voters ← get_vote_info meta_data "registered" (JSON.num 0)
  let state_postal ← pySubscr prog_data "statePostal"
  let state_name ← pySubscr prog_data "stateName"
  let race_type ← pySubscr meta_data "raceType"
  let race_call_status ← pySubscr meta_data "raceCallStatus"
  let office_name ← pySubscr meta_data "officeName"
  let last_updated_raw ← pySubscr prog_data "lastUpdated"
  let last_updated ← datetime_fromisoformat last_updated_raw
  let precincts_reporting ← pySubscr prog_data "precinctsReporting"
  let precincts_total ← pySubscr prog_data "precinctsTotal"
  let precincts_reporting_pct ← pySubscr prog_data "precinctsReportingPct"
  let expected_vote_pct ← pySubscr prog_data "eevp"
  let key_race ← pyGet meta_data "keyRace" (JSON.bool false)
  let base : RaceBase :=
    ⟨race_id, state_postal, state_name, race_type, race_call_status, office_name,
     last_updated, precincts_reporting, precincts_total, precincts_reporting_pct,
     expected_vote_pct, total_votes, registered_voters, key_race⟩
  let prog_cands ← pySubscr prog_data "candidates"
  let prog_cand_list ← pyIter prog_cands
  let candidates ← mapExcept (fun pc => parse_candidate pc meta_data) prog_cand_list
  let isMeasure ← is_ballot_measure meta_data
  if isMeasure then
    let description_default ← pySubscr meta_data "officeName"
    let description ← pyGet meta_data "description" description_default
    let category ← pyGet meta_data "category" (JSON.str "Uncategorized")
    let summary ← pyGet meta_data "summary" (JSON.str "")
    let designation ← pyGet meta_data "designation" (JSON.str "")
    pure (.ballotMeasure base description category summary designation candidates)
  else
    let office_id ← pySubscr meta_data "officeID"
    let seat_name ← pyGet meta_data "seatName" JSON.null
    let seat_num ← pyGet meta_data "seatNum" JSON.null
    let incumbent_id ← pyGet meta_data "incumbentID" JSON.null
    pure (.electionRace base office_id candidates seat_name seat_num incumbent_id)

/-- Embeds `ElectionDataParser.parse_results`: iterate the progress map's
races in order, skip ids absent from the metadata map, and recover from any
per-race exception, recording the failed race id (the source logs it) and
continuing.  Both feeds are dicts — association lists with unique keys — so
iterating entries visits each race id with its value. -/
def parse_results : List (String × JSON) → List (String × JSON) →
    List (String × RaceRecord) × List String
  | [], _ => ([], [])
  | (race_id, prog_entry) :: rest, metadata =>
    match metadata.lookup race_id with
    | none => parse_results rest metadata
    | some meta_entry =>
      let (races, failures) := parse_results rest metadata
      match parse_race race_id prog_entry meta_entry with
      | .ok r => ((race_id, r) :: races, failures)
      | .error _ => (races, race_id :: failures)

/-- The category label `categorize_races` files a record under. -/
def categoryOf (race : RaceRecord) : String :=
  match race with
  | .ballotMeasure _ _ _ _ _ _ => "Ballot Measures"
  | .electionRace _ office_id _ _ _ _ =>
    if office_id.isStrEq "P" then "Presidential"
    else if office_id.isStrEq "S" then "Senate"
    else if office_id.isStrEq "H" then "House"
    else if office_id.isStrEq "G" then "Governor"
    else "Other"

/-- `defaultdict(list)` append: extend the bucket with this label, or open a
new bucket at the end (dict insertion order). -/
def addToCategory (cats : List (String × List RaceRecord)) (label : String)
    (race : RaceRecord) : List (String × List RaceRecord) :=
  match cats with
  | [] => [(label, [race])]
  | (l, rs) :: rest =>
    if l = label then (l, rs ++ [race]) :: rest
    else (l, rs) :: addToCategory rest label race

/-- Embeds `ElectionDataParser.categorize_races`: group the reconciled
records (the race dict's values, in order) into a `defaultdict(list)` keyed
by the category decided from each record's variant and office id. -/
def categorize_races (races : List RaceRecord) : List (String × List RaceRecord) :=
  races.foldl
    (fun cats race =>
      match race with
      | .ballotMeasure _ _ _ _ _ _ => addToCategory cats "Ballot Measures" race
      | .electionRace _ office_id _ _ _ _ =>
        if office_id.isStrEq "P" then addToCategory cats "Presidential" race
        else if office_id.isStrEq "S" then addToCategory cats "Senate" race
        else if office_id.isStrEq "H" then addToCategory cats "House" race
        else if office_id.isStrEq "G" then addToCategory cats "Governor" race
        else addToCategory cats "Other" race)
    []

/-- Metadata entry of a governor's race with two person candidates (the
end-to-end scenario of the spec). -/
def exMetaGov : JSON := .obj [
  ("raceType", .str "General"), ("raceCallStatus", .str "Not Called"),
  ("officeName", .str "Governor"), ("officeID", .str "G"),
  ("candidates", .obj [
    ("c1", .obj [("first", .str "Jane"), ("last", .str "Doe"),
                 ("party", .str "Dem"), ("ballotOrder", .num 1)]),
    ("c2", .obj [("first", .str "Tom"), ("last", .str "Roe"),
                 ("party", .str "GOP"), ("ballotOrder", .num 2)])])]

/-- Progress entry matching `exMetaGov`. -/
def exProgGov : JSON := .obj [
  ("statePostal", .str "NC"), ("stateName", .str "North Carolina"),
  ("lastUpdated", .str "2024-11-05T20:00:00-05:00"),
  ("precinctsReporting", .num 10), ("precinctsTotal", .num 20),
  ("precinctsReportingPct", .num 50), ("eevp", .num 60),
  ("candidates", .arr [
    .obj [("candidateID", .str "c1"), ("voteCount", .num 100), ("votePct", .num 55)],
    .obj [("candidateID", .str "c2"), ("voteCount", .num 82), ("votePct", .num 45)]])]

/-- Metadata entry of a ballot measure with Yes/No option candidates and no
description, category, summary or designation keys. -/
def exMetaMeasure : JSON := .obj [
  ("raceType", .str "General"), ("raceCallStatus", .str "Not Called"),
  ("officeName", .str "Amendment 4"),
  ("candidates", .obj [
    ("y1", .obj [("last", .str "Yes"), ("party", .str "Yes"), ("ballotOrder", .num 1)]),
    ("n1", .obj [("last", .str "No"), ("party", .str "No"), ("ballotOrder", .num 2)])])]

/-- Progress entry matching `exMetaMeasure`. -/
def exProgMeasure : JSON := .obj [
  ("statePostal", .str "FL"), ("stateName", .str "Florida"),
  ("lastUpdated", .str "2024-11-05T21:30:00"),
  ("precinctsReporting", .num 5), ("precinctsTotal", .num 5),
  ("precinctsReportingPct", .num 100), ("eevp", .num 99),
  ("candidates", .arr [
    .obj [("candidateID", .str "y1"), ("voteCount", .num 700), ("votePct", .num 70)],
    .obj [("candidateID", .str "n1"), ("voteCount", .num 300), ("votePct", .num 30)]])]

def exProgCand1 : JSON := .obj [("candidateID", .str "c1"), ("voteCount", .num 100), ("votePct", .num 55)]

def exMcJane : JSON := .obj [("first", .str "Jane"), ("last", .str "Doe"),
  ("party", .str "Dem"), ("ballotOrder", .num 1)]

def exProgCandY : JSON := .obj [("candidateID", .str "y1"), ("voteCount", .num 700), ("votePct", .num 70)]

def exMcYes : JSON := .obj [("last", .str "Yes"), ("party", .str "Yes"), ("ballotOrder", .num 1)]

/-- Fields of a progress entry that carries everything `parse_race` reads
except `eevp`. -/
def exProgNoEevpFields : List (String × JSON) := [
  ("statePostal", .str "NC"), ("stateName", .str "North Carolina"),
  ("lastUpdated", .str "2024-11-05T20:00:00-05:00"),
  ("precinctsReporting", .num 10), ("precinctsTotal", .num 20),
  ("precinctsReportingPct", .num 50),
  ("candidates", .arr [
    .obj [("candidateID", .str "c1"), ("voteCount", .num 100), ("votePct", .num 55)]])]

/-- The record `parse_race` builds from `exProgGov`/`exMetaGov` under a given
race id. -/
def exRaceGovAt (rid : String) : RaceRecord :=
  .electionRace
    ⟨rid, .str "NC", .str "North Carolina", .str "General", .str "Not Called",
     .str "Governor", ⟨"2024-11-05T20:00:00-05:00"⟩, .num 10, .num 20, .num 50,
     .num 60, .num 0, .num 0, .bool false⟩
    (.str "G")
    [.person ⟨.str "c1", .str "Dem", .num 1, .num 100, .num 55, JSON.null, JSON.null⟩
       (.str "Jane") (.str "Doe") (.bool false),
     .person ⟨.str "c2", .str "GOP", .num 2, .num 82, .num 45, JSON.null, JSON.null⟩
       (.str "Tom") (.str "Roe") (.bool false)]
    JSON.null JSON.null JSON.null

/-- The base record `parse_race` builds from `exProgMeasure`/`exMetaMeasure`. -/
def exMeasureBase : RaceBase :=
  ⟨"m1", .str "FL", .str "Florida", .str "General", .str "Not Called",
   .str "Amendment 4", ⟨"2024-11-05T21:30:00"⟩, .num 5, .num 5, .num 100,
   .num 99, .num 0, .num 0, .bool false⟩

/-- The option candidates `parse_race` builds from the measure example. -/
def exMeasureCands : List Candidate :=
  [.ballotOption ⟨.str "y1", .str "Yes", .num 1, .num 700, .num 70, JSON.null, JSON.null⟩
     (.str "Yes"),
   .ballotOption ⟨.str "n1", .str "No", .num 2, .num 300, .num 30, JSON.null, JSON.null⟩
     (.str "No")]

/-- Observer: the value sitting at `parameters.vote` in a metadata payload,
when both keys are present. -/
def nestedVote (data : JSON) : Option JSON :=
  match data.lookupKey "parameters" with
  | some p => p.lookupKey "vote"
  | none => none

/-- Modelled from the spec (claim C1 signal 1), the comparison side of the
refinement: the designated supplemental office code equals the sentinel
"IME". -/
def claimed_signal1 (meta : JSON) : Bool :=
  match meta.lookupKey "suppOfficeID" with
  | some (.str s) => s == "IME"
  | _ => false

/-- Modelled from the spec (claim C1 signal 2): the office name, split on
whitespace, contains a token from the fixed keyword set (case-sensitive
exact token match). -/
def claimed_signal2 (meta : JSON) : Bool :=
  match meta.lookupKey "officeName" with
  | some (.str s) =>
    (splitWsAux s.data []).any (fun t => BALLOT_MEASURE_KEYWORDS.contains t)
  | _ => false

/-- The lower-cased "last" name of one metadata candidate object (empty for
an absent name, matching the classifier's default). -/
def claimed_last_name (c : JSON) : String :=
  match c with
  | .obj cf =>
    match cf.lookup "last" with
    | some (.str t) => strLower t
    | _ => ""
  | _ => ""

/-- Modelled from the spec (claim C1 signal 3): the set of lower-cased
candidate last names across all metadata candidates is a superset of
{yes, no} or of {for, against}. -/
def claimed_signal3 (meta : JSON) : Bool :=
  match meta.lookupKey "candidates" with
  | some (.obj cs) =>
    (["yes", "no"].all fun s => (cs.map (fun kv => claimed_last_name kv.2)).contains s) ||
    (["for", "against"].all fun s => (cs.map (fun kv => claimed_last_name kv.2)).contains s)
  | _ => false

/-- Governor metadata whose candidates are nonetheless named Yes and No. -/
def exMetaYesNo : JSON := .obj [("officeName", .str "Governor"),
  ("candidates", .obj [("y", .obj [("last", .str "Yes")]),
                       ("n", .obj [("last", .str "No")])])]

example : pySubscr (.obj [("a", .num 1)]) "a" = .ok (.num 1) := rfl

example : get_vote_info (.obj [("vote", .obj [("total", .num 7)])]) "total" (.num 0) = .ok (.num 7) := rfl

example : get_vote_info (.obj []) "total" (.num 0) = .ok (.num 0) := rfl

example : get_vote_info (.obj [("parameters", .obj [("vote", .num 0)])]) "total" (.num 0) = .error .attributeError := rfl

example : is_ballot_measure (.obj [("officeName", .str "Amendment 4")]) = .ok true := rfl

example : is_ballot_measure (.obj [("officeName", .str "Governor")]) = .ok false := rfl

example : is_ballot_measure (.obj [("officeName", .str "Governor"),
  ("candidates", .obj [("c1", .obj [("last", .str "Yes")]), ("c2", .obj [("last", .str "No")])])]) = .ok true := rfl

example : (parse_race "2024-X-1" exProgGov exMetaGov).map RaceRecord.isMeasure = .ok false := rfl

example : (parse_race "m1" exProgMeasure exMetaMeasure).map RaceRecord.isMeasure = .ok true := rfl

example : ((parse_results [("2024-X-1", exProgGov), ("m1", exProgMeasure)]
    [("2024-X-1", exMetaGov), ("m1", exMetaMeasure)]).1.map Prod.fst) = ["2024-X-1", "m1"] := rfl

example : (categorize_races ((parse_results [("2024-X-1", exProgGov), ("m1", exProgMeasure)]
    [("2024-X-1", exMetaGov), ("m1", exMetaMeasure)]).1.map Prod.snd)).map Prod.fst =
    ["Governor", "Ballot Measures"] := rfl

/-- Success inversion for `Except` bind. -/
theorem except_bind_ok {α β : Type} {x : Except PyExc α} {f : α → Except PyExc β} {b : β} :
    (x >>= f = Except.ok b) ↔ ∃ a, x = Except.ok a ∧ f a = Except.ok b := by
  cases x with
  | ok a => simp [Bind.bind, Except.bind]
  | error e => simp [Bind.bind, Except.bind]

/-- Success inversion for `Except` pure. -/
theorem except_pure_ok {α : Type} {a b : α} :
    (pure a : Except PyExc α) = Except.ok b ↔ a = b := by
  simp [pure, Except.pure]

/-- A successful list-comprehension run maps each input to the output at the
same position: same length, i-th output produced from i-th input. -/
theorem mapExcept_ok_spec {α β : Type} (f : α → Except PyExc β) :
    ∀ (l : List α) (out : List β), mapExcept f l = .ok out →
      out.length = l.length ∧
      ∀ i (hi : i < l.length) (ho : i < out.length),
        f (l.get ⟨i, hi⟩) = .ok (out.get ⟨i, ho⟩) := by
  intro l
  induction l with
  | nil =>
    intro out h
    simp only [mapExcept] at h
    cases h
    exact ⟨rfl, by intro i hi ho; simp at hi⟩
  | cons x xs ih =>
    intro out h
    simp only [mapExcept, except_bind_ok] at h
    obtain ⟨y, hy, ys, hys, hcons⟩ := h
    cases hcons
    obtain ⟨hlen, hget⟩ := ih ys hys
    refine ⟨by simp [hlen], ?_⟩
    intro i hi ho
    cases i with
    | zero => simpa using hy
    | succ n =>
      simp only [List.get]
      exact hget n (by simpa using hi) (by simpa using ho)

/-- Success inversion for `parse_candidate`: every field access the source
performs, in order, and the resulting variant shape. -/
theorem parse_candidate_ok_elim {prog meta : JSON} {c : Candidate}
    (h : parse_candidate prog meta = .ok c) :
    ∃ cand_id cands meta_cand party ballot_order vote_count vote_pct advance_total color_index,
      pySubscr prog "candidateID" = .ok cand_id ∧
      pySubscr meta "candidates" = .ok cands ∧
      pySubscrKey cands cand_id = .ok meta_cand ∧
      pySubscr meta_cand "party" = .ok party ∧
      pySubscr meta_cand "ballotOrder" = .ok ballot_order ∧
      pySubscr prog "voteCount" = .ok vote_count ∧
      pySubscr prog "votePct" = .ok vote_pct ∧
      pyGet prog "advanceTotal" JSON.null = .ok advance_total ∧
      pyGet prog "colorIndex" JSON.null = .ok color_index ∧
      ((meta_cand.lookupKey "first").isSome = true →
        ∃ fn ln inc, pySubscr meta_cand "first" = .ok fn ∧
          pySubscr meta_cand "last" = .ok ln ∧
          pyGet meta_cand "incumbent" (JSON.bool false) = .ok inc ∧
          c = .person ⟨cand_id, party, ballot_order, vote_count, vote_pct,
                advance_total, color_index⟩ fn ln inc) ∧
      ((meta_cand.lookupKey "first").isSome = false →
        ∃ opt, pySubscr meta_cand "last" = .ok opt ∧
          c = .ballotOption ⟨cand_id, party, ballot_order, vote_count, vote_pct,
                advance_total, color_index⟩ opt) := by
  simp only [parse_candidate, except_bind_ok, except_pure_ok] at h
  obtain ⟨cand_id, h1, cands, h2, meta_cand, h3, party, h4, ballot_order, h5,
    vote_count, h6, vote_pct, h7, advance_total, h8, color_index, h9, hasFirst, h10, hrest⟩ := h
  have hobj : ∃ fs, meta_cand = JSON.obj fs := by
    cases meta_cand <;> simp_all [pySubscr]
  obtain ⟨fs, rfl⟩ := hobj
  have hcf : hasFirst = (JSON.lookupKey (JSON.obj fs) "first").isSome := by
    simp only [pyContains, JSON.lookupKey] at h10 ⊢
    cases h10
    rfl
  refine ⟨cand_id, cands, JSON.obj fs, party, ballot_order, vote_count, vote_pct,
    advance_total, color_index, h1, h2, h3, h4, h5, h6, h7, h8, h9, ?_, ?_⟩
  · intro hfirst
    rw [hcf, hfirst] at hrest
    simp only [if_true, except_bind_ok, except_pure_ok] at hrest
    obtain ⟨fn, hfn, ln, hln, inc, hinc, rfl⟩ := hrest
    exact ⟨fn, ln, inc, hfn, hln, hinc, rfl⟩
  · intro hfirst
    rw [hcf, hfirst] at hrest
    simp only [Bool.false_eq_true, if_false, except_bind_ok, except_pure_ok] at hrest
    obtain ⟨opt, hopt, rfl⟩ := hrest
    exact ⟨opt, hopt, rfl⟩

/-- A successful subscript is a key hit. -/
theorem pySubscr_ok_lookupKey {j : JSON} {k : String} {v : JSON}
    (h : pySubscr j k = .ok v) : j.lookupKey k = some v := by
  cases j
  case obj fields =>
    simp only [pySubscr] at h
    cases hl : fields.lookup k <;> simp only [hl] at h
    · exact absurd h (by simp)
    · cases h
      simp [JSON.lookupKey, hl]
  all_goals exact absurd h (by simp [pySubscr])

/-- A successful `.get` returns the key's value or the default. -/
theorem pyGet_ok_getD {j : JSON} {k : String} {dflt v : JSON}
    (h : pyGet j k dflt = .ok v) : v = (j.lookupKey k).getD dflt := by
  cases j
  case obj fields =>
    simp only [pyGet] at h
    cases h
    simp [JSON.lookupKey]
  all_goals exact absurd h (by simp [pyGet])

example : parse_candidate exProgCand1 exMetaGov =
    .ok (.person ⟨.str "c1", .str "Dem", .num 1, .num 100, .num 55, JSON.null, JSON.null⟩
      (.str "Jane") (.str "Doe") (.bool false)) := rfl

example : parse_candidate exProgCandY exMetaMeasure =
    .ok (.ballotOption ⟨.str "y1", .str "Yes", .num 1, .num 700, .num 70, JSON.null, JSON.null⟩
      (.str "Yes")) := rfl

/-- C2: for every progress candidate entry whose identifier resolves to a
metadata candidate object `mc`, a successful `parse_candidate` yields a
`PersonCandidate` exactly when `mc` has a `first` key — with the last name
taken from `last` and the incumbent flag defaulting to false — and otherwise
a `BallotOptionCandidate` whose option name is `mc`'s `last` value; the
presence of `first` is the only discriminator. -/
theorem c2_candidate_variant_decided_by_first_key
    (prog meta mc : JSON) (c : Candidate)
    (hresolve : ∃ cid cands, pySubscr prog "candidateID" = .ok cid ∧
      pySubscr meta "candidates" = .ok cands ∧ pySubscrKey cands cid = .ok mc)
    (h : parse_candidate prog meta = .ok c) :
    match c with
    | .person _ _ ln inc =>
        (mc.lookupKey "first").isSome = true ∧ mc.lookupKey "last" = some ln ∧
        inc = (mc.lookupKey "incumbent").getD (JSON.bool false)
    | .ballotOption _ opt =>
        (mc.lookupKey "first").isSome = false ∧ mc.lookupKey "last" = some opt := by
  obtain ⟨cid, cands, hcid, hcands, hmc⟩ := hresolve
  obtain ⟨cid2, cands2, mc2, party, ballot_order, vote_count, vote_pct, adv, col,
    h1, h2, h3, h4, h5, h6, h7, h8, h9, hperson, hopt⟩ := parse_candidate_ok_elim h
  rw [hcid] at h1
  cases h1
  rw [hcands] at h2
  cases h2
  rw [hmc] at h3
  cases h3
  cases hfs : (mc.lookupKey "first").isSome with
  | true =>
    obtain ⟨fn, ln, inc, hfn, hln, hinc, rfl⟩ := hperson hfs
    exact ⟨rfl, pySubscr_ok_lookupKey hln, pyGet_ok_getD hinc⟩
  | false =>
    obtain ⟨opt, hopt2, rfl⟩ := hopt hfs
    exact ⟨rfl, pySubscr_ok_lookupKey hopt2⟩

/-- C2 witness: the theorem applied to a person candidate (Jane Doe in the
governor metadata) and a ballot option candidate (Yes in the measure
metadata). -/
theorem c2_candidate_variant_decided_by_first_key_witness :
    ((JSON.lookupKey exMcJane "first").isSome = true ∧
      JSON.lookupKey exMcJane "last" = some (.str "Doe") ∧
      JSON.bool false = (JSON.lookupKey exMcJane "incumbent").getD (JSON.bool false)) ∧
    ((JSON.lookupKey exMcYes "first").isSome = false ∧
      JSON.lookupKey exMcYes "last" = some (.str "Yes")) := by
  constructor
  · exact c2_candidate_variant_decided_by_first_key exProgCand1 exMetaGov exMcJane
      (.person ⟨.str "c1", .str "Dem", .num 1, .num 100, .num 55, JSON.null, JSON.null⟩
        (.str "Jane") (.str "Doe") (.bool false))
      ⟨.str "c1", .obj [
        ("c1", .obj [("first", .str "Jane"), ("last", .str "Doe"),
                     ("party", .str "Dem"), ("ballotOrder", .num 1)]),
        ("c2", .obj [("first", .str "Tom"), ("last", .str "Roe"),
                     ("party", .str "GOP"), ("ballotOrder", .num 2)])], rfl, rfl, rfl⟩ rfl
  · exact c2_candidate_variant_decided_by_first_key exProgCandY exMetaMeasure exMcYes
      (.ballotOption ⟨.str "y1", .str "Yes", .num 1, .num 700, .num 70, JSON.null, JSON.null⟩
        (.str "Yes"))
      ⟨.str "y1", .obj [
        ("y1", .obj [("last", .str "Yes"), ("party", .str "Yes"), ("ballotOrder", .num 1)]),
        ("n1", .obj [("last", .str "No"), ("party", .str "No"), ("ballotOrder", .num 2)])],
        rfl, rfl, rfl⟩ rfl

/-- Success inversion for `parse_race`: every access the source performs, the
shared base record, the candidate list, and the variant chosen by the
classifier. -/
theorem parse_race_ok_elim {race_id : String} {prog meta : JSON} {r : RaceRecord}
    (h : parse_race race_id prog meta = .ok r) :
    ∃ total_votes registered_voters state_postal state_name race_type race_call_status
      office_name lu_raw last_updated pr pt prp eevp key_race prog_cands prog_cand_list
      candidates isMeasure,
      get_vote_info meta "total" (JSON.num 0) = .ok total_votes ∧
      get_vote_info meta "registered" (JSON.num 0) = .ok registered_voters ∧
      pySubscr prog "statePostal" = .ok state_postal ∧
      pySubscr prog "stateName" = .ok state_name ∧
      pySubscr meta "raceType" = .ok race_type ∧
      pySubscr meta "raceCallStatus" = .ok race_call_status ∧
      pySubscr meta "officeName" = .ok office_name ∧
      pySubscr prog "lastUpdated" = .ok lu_raw ∧
      datetime_fromisoformat lu_raw = .ok last_updated ∧
      pySubscr prog "precinctsReporting" = .ok pr ∧
      pySubscr prog "precinctsTotal" = .ok pt ∧
      pySubscr prog "precinctsReportingPct" = .ok prp ∧
      pySubscr prog "eevp" = .ok eevp ∧
      pyGet meta "keyRace" (JSON.bool false) = .ok key_race ∧
      pySubscr prog "candidates" = .ok prog_cands ∧
      pyIter prog_cands = .ok prog_cand_list ∧
      mapExcept (fun pc => parse_candidate pc meta) prog_cand_list = .ok candidates ∧
      is_ballot_measure meta = .ok isMeasure ∧
      r.base = ⟨race_id, state_postal, state_name, race_type, race_call_status,
        office_name, last_updated, pr, pt, prp, eevp, total_votes,
        registered_voters, key_race⟩ ∧
      r.candidates = candidates ∧
      r.isMeasure = isMeasure ∧
      (isMeasure = true → ∃ description category summary designation,
        pyGet meta "description" office_name = .ok description ∧
        pyGet meta "category" (JSON.str "Uncategorized") = .ok category ∧
        pyGet meta "summary" (JSON.str "") = .ok summary ∧
        pyGet meta "designation" (JSON.str "") = .ok designation ∧
        r = .ballotMeasure r.base description category summary designation candidates) ∧
      (isMeasure = false → ∃ office_id seat_name seat_num incumbent_id,
        pySubscr meta "officeID" = .ok office_id ∧
        pyGet meta "seatName" JSON.null = .ok seat_name ∧
        pyGet meta "seatNum" JSON.null = .ok seat_num ∧
        pyGet meta "incumbentID" JSON.null = .ok incumbent_id ∧
        r = .electionRace r.base office_id candidates seat_name seat_num incumbent_id) := by
  simp only [parse_race, except_bind_ok, except_pure_ok] at h
  obtain ⟨tv, h1, rv, h2, sp, h3, sn, h4, rt, h5, rcs, h6, onm, h7, lur, h8, lu, h9,
    pr, h10, pt, h11, prp, h12, eevp, h13, kr, h14, pcs, h15, pclist, h16, cands, h17,
    isM, h18, hrest⟩ := h
  cases isM with
  | true =>
    simp only [if_true, except_bind_ok, except_pure_ok] at hrest
    obtain ⟨dd, hdd, desc, hdesc, cat, hcat, summ, hsumm, desig, hdesig, rfl⟩ := hrest
    rw [h7] at hdd
    cases hdd
    exact ⟨tv, rv, sp, sn, rt, rcs, onm, lur, lu, pr, pt, prp, eevp, kr, pcs, pclist,
      cands, true, h1, h2, h3, h4, h5, h6, h7, h8, h9, h10, h11, h12, h13, h14, h15,
      h16, h17, h18, rfl, rfl, rfl,
      fun _ => ⟨desc, cat, summ, desig, hdesc, hcat, hsumm, hdesig, rfl⟩,
      fun hf => absurd hf (by simp)⟩
  | false =>
    simp only [Bool.false_eq_true, if_false, except_bind_ok, except_pure_ok] at hrest
    obtain ⟨oid, hoid, seat_name, hseat, seat_num, hseatn, inc_id, hinc, rfl⟩ := hrest
    exact ⟨tv, rv, sp, sn, rt, rcs, onm, lur, lu, pr, pt, prp, eevp, kr, pcs, pclist,
      cands, false, h1, h2, h3, h4, h5, h6, h7, h8, h9, h10, h11, h12, h13, h14, h15,
      h16, h17, h18, rfl, rfl, rfl,
      fun hf => absurd hf (by simp),
      fun _ => ⟨oid, seat_name, seat_num, inc_id, hoid, hseat, hseatn, hinc, rfl⟩⟩

example : parse_race "2024-X-1" exProgGov exMetaGov = .ok (exRaceGovAt "2024-X-1") := rfl

/-- C6 counterexample: a progress entry supplying every other required field
but no `eevp` is not reconciled into a record — `parse_race` raises
KeyError("eevp"), refuting the claim that the record is still produced. -/
theorem c6_counterexample_missing_eevp_fails :
    parse_race "2024-X-1" (.obj exProgNoEevpFields) exMetaGov = .error (.keyError "eevp") := rfl

/-- C6 (amended): the expected-vote percentage is not optional in the race
reconciler: `parse_race` reads `eevp` with a bare subscript, so every
progress entry without an `eevp` key fails reconciliation (and the builder
then skips that race); no record is produced. -/
theorem c6_eevp_required_for_reconciliation (race_id : String)
    (fields : List (String × JSON)) (meta : JSON)
    (hno : fields.lookup "eevp" = none) :
    ∃ e, parse_race race_id (.obj fields) meta = .error e := by
  cases hres : parse_race race_id (.obj fields) meta with
  | error e => exact ⟨e, rfl⟩
  | ok r =>
    obtain ⟨tv, rv, sp, sn, rt, rcs, onm, lur, lu, pr, pt, prp, eevp, kr, pcs, pcl,
      cands, isM, e1, e2, e3, e4, e5, e6, e7, e8, e9, e10, e11, e12, e13, e14, e15,
      e16, e17, e18, e19, e20, e21, e22, e23⟩ := parse_race_ok_elim hres
    have hk := pySubscr_ok_lookupKey e13
    rw [JSON.lookupKey] at hk
    rw [hno] at hk
    cases hk

/-- C6 witness for the amended claim: the concrete eevp-less progress entry
fails against the governor metadata. -/
theorem c6_eevp_required_for_reconciliation_witness :
    ∃ e, parse_race "2024-X-1" (.obj exProgNoEevpFields) exMetaGov = .error e :=
  c6_eevp_required_for_reconciliation "2024-X-1" exProgNoEevpFields exMetaGov rfl

/-- C8: the ballot-measure/candidate-race decision inside reconciliation is a
deterministic function of the metadata object alone: any two successful
reconciliations sharing the metadata entry — whatever their race ids or
progress entries — produce the same variant, and that variant is exactly the
classifier's verdict on the metadata. -/
theorem c8_variant_depends_only_on_metadata
    (rid1 rid2 : String) (prog1 prog2 meta : JSON) (r1 r2 : RaceRecord)
    (h1 : parse_race rid1 prog1 meta = .ok r1)
    (h2 : parse_race rid2 prog2 meta = .ok r2) :
    r1.isMeasure = r2.isMeasure ∧
    ∀ b, is_ballot_measure meta = .ok b → r1.isMeasure = b := by
  obtain ⟨_, _, _, _, _, _, _, _, _, _, _, _, _, _, _, _, _, isM1,
    _, _, _, _, _, _, _, _, _, _, _, _, _, _, _, _, _, f18, _, _, f21, _, _⟩ :=
    parse_race_ok_elim h1
  obtain ⟨_, _, _, _, _, _, _, _, _, _, _, _, _, _, _, _, _, isM2,
    _, _, _, _, _, _, _, _, _, _, _, _, _, _, _, _, _, g18, _, _, g21, _, _⟩ :=
    parse_race_ok_elim h2
  rw [f18] at g18
  cases g18
  constructor
  · rw [f21, g21]
  · intro b hb
    rw [f18] at hb
    cases hb
    exact f21

/-- C8 witness: two successful parses of the same governor metadata under
different race ids and the classifier's verdict on it. -/
theorem c8_variant_depends_only_on_metadata_witness :
    (exRaceGovAt "2024-X-1").isMeasure = (exRaceGovAt "2024-Y-9").isMeasure ∧
    (exRaceGovAt "2024-X-1").isMeasure = false :=
  ⟨(c8_variant_depends_only_on_metadata "2024-X-1" "2024-Y-9" exProgGov exProgGov
      exMetaGov (exRaceGovAt "2024-X-1") (exRaceGovAt "2024-Y-9") rfl rfl).1,
   (c8_variant_depends_only_on_metadata "2024-X-1" "2024-Y-9" exProgGov exProgGov
      exMetaGov (exRaceGovAt "2024-X-1") (exRaceGovAt "2024-Y-9") rfl rfl).2 false rfl⟩

/-- C9: a successfully reconciled race's candidate list has the same length
and order as the progress entry's candidate list: the i-th output candidate
is parsed from the i-th progress candidate; no reordering happens. -/
theorem c9_candidate_order_matches_progress (race_id : String) (prog meta : JSON)
    (r : RaceRecord) (h : parse_race race_id prog meta = .ok r) :
    ∃ prog_cands prog_cand_list,
      pySubscr prog "candidates" = .ok prog_cands ∧
      pyIter prog_cands = .ok prog_cand_list ∧
      r.candidates.length = prog_cand_list.length ∧
      ∀ i (hi : i < prog_cand_list.length) (ho : i < r.candidates.length),
        parse_candidate (prog_cand_list.get ⟨i, hi⟩) meta = .ok (r.candidates.get ⟨i, ho⟩) := by
  obtain ⟨_, _, _, _, _, _, _, _, _, _, _, _, _, _, pcs, pcl, cands, _,
    _, _, _, _, _, _, _, _, _, _, _, _, _, _, e15, e16, e17, _, _, e20, _, _, _⟩ :=
    parse_race_ok_elim h
  subst e20
  obtain ⟨hlen, hget⟩ :=
    mapExcept_ok_spec (fun pc => parse_candidate pc meta) pcl r.candidates e17
  exact ⟨pcs, pcl, e15, e16, hlen, hget⟩

/-- C9 witness: the governor race's two candidates come out in progress
order. -/
theorem c9_candidate_order_matches_progress_witness :
    ∃ prog_cands prog_cand_list,
      pySubscr exProgGov "candidates" = .ok prog_cands ∧
      pyIter prog_cands = .ok prog_cand_list ∧
      (exRaceGovAt "2024-X-1").candidates.length = prog_cand_list.length ∧
      ∀ i (hi : i < prog_cand_list.length)
        (ho : i < (exRaceGovAt "2024-X-1").candidates.length),
        parse_candidate (prog_cand_list.get ⟨i, hi⟩) exMetaGov =
          .ok ((exRaceGovAt "2024-X-1").candidates.get ⟨i, ho⟩) :=
  c9_candidate_order_matches_progress "2024-X-1" exProgGov exMetaGov
    (exRaceGovAt "2024-X-1") rfl

example : parse_race "m1" exProgMeasure exMetaMeasure =
    .ok (.ballotMeasure exMeasureBase (.str "Amendment 4") (.str "Uncategorized")
      (.str "") (.str "") exMeasureCands) := rfl

/-- C10: when a race is reconciled as a ballot measure, a missing
`description` key defaults the description to the metadata's (required)
office name, and a missing `designation` key defaults the designation to the
empty string. -/
theorem c10_measure_description_designation_defaults
    (race_id : String) (prog meta : JSON) (base : RaceBase)
    (desc cat summ desig : JSON) (cands : List Candidate)
    (h : parse_race race_id prog meta =
      .ok (.ballotMeasure base desc cat summ desig cands)) :
    (meta.lookupKey "description" = none → desc = base.office_name) ∧
    (meta.lookupKey "designation" = none → desig = .str "") := by
  obtain ⟨tv, rv, sp, sn, rt, rcs, onm, lur, lu, pr, pt, prp, eevp, kr, pcs, pcl,
    cands2, isM, e1, e2, e3, e4, e5, e6, e7, e8, e9, e10, e11, e12, e13, e14, e15,
    e16, e17, e18, e19, e20, e21, e22, e23⟩ := parse_race_ok_elim h
  have hm : isM = true := by rw [← e21]; rfl
  subst hm
  obtain ⟨desc2, cat2, summ2, desig2, hdesc, hcat, hsumm, hdesig, hr⟩ := e22 rfl
  injection hr with hb hd hc hs hdg hcs
  simp only [RaceRecord.base] at e19
  constructor
  · intro hnone
    rw [hd]
    have hgd := pyGet_ok_getD hdesc
    rw [hnone] at hgd
    simp only [Option.getD_none] at hgd
    rw [hgd, e19]
  · intro hnone
    rw [hdg]
    have hgd := pyGet_ok_getD hdesig
    rw [hnone] at hgd
    simpa using hgd

/-- C10 witness: the Amendment 4 example metadata, which has neither a
description nor a designation key. -/
theorem c10_measure_description_designation_defaults_witness :
    (JSON.lookupKey exMetaMeasure "description" = none →
      JSON.str "Amendment 4" = exMeasureBase.office_name) ∧
    (JSON.lookupKey exMetaMeasure "designation" = none →
      JSON.str "" = JSON.str "") :=
  c10_measure_description_designation_defaults "m1" exProgMeasure exMetaMeasure
    exMeasureBase (.str "Amendment 4") (.str "Uncategorized") (.str "") (.str "")
    exMeasureCands rfl

/-- C3 counterexample: a metadata payload whose `parameters.vote` holds a
non-dict value makes `get_vote_info` raise an uncaught AttributeError
(`.get` on a non-dict; only KeyError and TypeError are handled), refuting
the claim that the lookup never raises for any input. -/
theorem c3_counterexample_wrong_typed_vote_raises :
    get_vote_info (.obj [("parameters", .obj [("vote", .num 0)])]) "total" (.num 0) =
      .error .attributeError := rfl

/-- Reduction of `Except` bind on a success, for simp. -/
theorem except_bind_ok_red {α β : Type} {x : α} {f : α → Except PyExc β} :
    (Except.ok x >>= f) = f x := rfl

/-- Reduction of `Except` bind on an error, for simp. -/
theorem except_bind_error_red {α β : Type} {e : PyExc} {f : α → Except PyExc β} :
    ((Except.error e : Except PyExc α) >>= f) = Except.error e := rfl

/-- What the second `try` block of `get_vote_info` yields, by the shape of
the top-level `vote` entry. -/
theorem get_vote_info_fallback_spec (data : JSON) (field : String) :
    match data.lookupKey "vote" with
    | some (.obj fs) =>
      get_vote_info.get_vote_info_fallback data field (.num 0) =
        .ok ((fs.lookup field).getD (.num 0))
    | some _ =>
      get_vote_info.get_vote_info_fallback data field (.num 0) = .error .attributeError
    | none =>
      get_vote_info.get_vote_info_fallback data field (.num 0) = .ok (.num 0) := by
  cases data with
  | obj fields =>
    cases hv : fields.lookup "vote" with
    | none =>
      simp only [JSON.lookupKey, hv]
      simp only [get_vote_info.get_vote_info_fallback, pySubscr, hv,
        except_bind_ok_red, except_bind_error_red]
    | some v =>
      cases v <;> simp only [JSON.lookupKey, hv] <;>
        simp only [get_vote_info.get_vote_info_fallback, pySubscr, pyGet, hv,
          except_bind_ok_red, except_bind_error_red]
  | null => rfl
  | bool b => rfl
  | num q => rfl
  | str s => rfl
  | arr elems => rfl

/-- C3 (amended): `get_vote_info` probes `parameters.vote` first and the
top-level `vote` second; a probe whose containers are missing, or whose
subscripting raises KeyError/TypeError, falls through (to the next probe,
then to the default 0) without propagating any error — but a probed `vote`
location holding a non-dict value makes the `.get` attribute lookup raise an
AttributeError that neither handler catches. -/
theorem c3_vote_info_probe_order_and_attribute_error (data : JSON) (field : String) :
    match nestedVote data with
    | some (.obj fs) =>
      get_vote_info data field (.num 0) = .ok ((fs.lookup field).getD (.num 0))
    | some _ => get_vote_info data field (.num 0) = .error .attributeError
    | none =>
      match data.lookupKey "vote" with
      | some (.obj fs) =>
        get_vote_info data field (.num 0) = .ok ((fs.lookup field).getD (.num 0))
      | some _ => get_vote_info data field (.num 0) = .error .attributeError
      | none => get_vote_info data field (.num 0) = .ok (.num 0) := by
  cases data with
  | obj fields =>
    cases hp : fields.lookup "parameters" with
    | none =>
      have hred : get_vote_info (.obj fields) field (.num 0) =
          get_vote_info.get_vote_info_fallback (.obj fields) field (.num 0) := by
        simp only [get_vote_info, pySubscr, hp, except_bind_ok_red, except_bind_error_red]
      have hnv : nestedVote (.obj fields) = none := by
        simp [nestedVote, JSON.lookupKey, hp]
      simp only [hnv, hred]
      exact get_vote_info_fallback_spec (.obj fields) field
    | some p =>
      cases p with
      | obj pf =>
        cases hv2 : pf.lookup "vote" with
        | none =>
          have hred : get_vote_info (.obj fields) field (.num 0) =
              get_vote_info.get_vote_info_fallback (.obj fields) field (.num 0) := by
            simp only [get_vote_info, pySubscr, hp, hv2,
              except_bind_ok_red, except_bind_error_red]
          have hnv : nestedVote (.obj fields) = none := by
            simp [nestedVote, JSON.lookupKey, hp, hv2]
          simp only [hnv, hred]
          exact get_vote_info_fallback_spec (.obj fields) field
        | some v =>
          have hnv2 : nestedVote (.obj fields) = some v := by
            simp [nestedVote, JSON.lookupKey, hp, hv2]
          cases v <;> simp only [hnv2] <;>
            simp only [get_vote_info, pySubscr, pyGet, hp, hv2,
              except_bind_ok_red, except_bind_error_red]
      | null =>
        have hred : get_vote_info (.obj fields) field (.num 0) =
            get_vote_info.get_vote_info_fallback (.obj fields) field (.num 0) := by
          simp only [get_vote_info, pySubscr, hp, except_bind_ok_red, except_bind_error_red]
        have hnv : nestedVote (.obj fields) = none := by
          simp [nestedVote, JSON.lookupKey, hp]
        simp only [hnv, hred]
        exact get_vote_info_fallback_spec (.obj fields) field
      | bool b =>
        have hred : get_vote_info (.obj fields) field (.num 0) =
            get_vote_info.get_vote_info_fallback (.obj fields) field (.num 0) := by
          simp only [get_vote_info, pySubscr, hp, except_bind_ok_red, except_bind_error_red]
        have hnv : nestedVote (.obj fields) = none := by
          simp [nestedVote, JSON.lookupKey, hp]
        simp only [hnv, hred]
        exact get_vote_info_fallback_spec (.obj fields) field
      | num q =>
        have hred : get_vote_info (.obj fields) field (.num 0) =
            get_vote_info.get_vote_info_fallback (.obj fields) field (.num 0) := by
          simp only [get_vote_info, pySubscr, hp, except_bind_ok_red, except_bind_error_red]
        have hnv : nestedVote (.obj fields) = none := by
          simp [nestedVote, JSON.lookupKey, hp]
        simp only [hnv, hred]
        exact get_vote_info_fallback_spec (.obj fields) field
      | str s =>
        have hred : get_vote_info (.obj fields) field (.num 0) =
            get_vote_info.get_vote_info_fallback (.obj fields) field (.num 0) := by
          simp only [get_vote_info, pySubscr, hp, except_bind_ok_red, except_bind_error_red]
        have hnv : nestedVote (.obj fields) = none := by
          simp [nestedVote, JSON.lookupKey, hp]
        simp only [hnv, hred]
        exact get_vote_info_fallback_spec (.obj fields) field
      | arr elems =>
        have hred : get_vote_info (.obj fields) field (.num 0) =
            get_vote_info.get_vote_info_fallback (.obj fields) field (.num 0) := by
          simp only [get_vote_info, pySubscr, hp, except_bind_ok_red, except_bind_error_red]
        have hnv : nestedVote (.obj fields) = none := by
          simp [nestedVote, JSON.lookupKey, hp]
        simp only [hnv, hred]
        exact get_vote_info_fallback_spec (.obj fields) field
  | null => rfl
  | bool b => rfl
  | num q => rfl
  | str s => rfl
  | arr elems => rfl

/-- `parse_results` as two filters over the progress entries: the reconciled
races and the recorded failures. -/
theorem parse_results_eq_filterMap (progress metadata : List (String × JSON)) :
    parse_results progress metadata =
      (progress.filterMap (fun kv =>
        match metadata.lookup kv.1 with
        | none => none
        | some md =>
          match parse_race kv.1 kv.2 md with
          | .ok r => some (kv.1, r)
          | .error _ => none),
       progress.filterMap (fun kv =>
        match metadata.lookup kv.1 with
        | none => none
        | some md =>
          match parse_race kv.1 kv.2 md with
          | .ok _ => none
          | .error _ => some kv.1)) := by
  induction progress with
  | nil => rfl
  | cons kv rest ih =>
    obtain ⟨rid0, pd0⟩ := kv
    simp only [parse_results, List.filterMap_cons]
    cases hmd : metadata.lookup rid0 with
    | none => simpa using ih
    | some md =>
      rw [ih]
      cases hpc : parse_race rid0 pd0 md with
      | ok r0 => simp [hmd, hpc]
      | error e => simp [hmd, hpc]

/-- C4: the Result Set Builder walks the progress map's race ids, silently
drops every id absent from the metadata map, recovers from every per-race
reconciliation failure by recording the id and continuing, and its race
output holds exactly the races that reconciled successfully (it is total —
reconciliation errors never abort the batch). -/
theorem c4_builder_output_exactly_successful_races
    (progress metadata : List (String × JSON)) (race_id : String) :
    (∀ r, (race_id, r) ∈ (parse_results progress metadata).1 ↔
      ∃ pd md, (race_id, pd) ∈ progress ∧ metadata.lookup race_id = some md ∧
        parse_race race_id pd md = .ok r) ∧
    (race_id ∈ (parse_results progress metadata).2 ↔
      ∃ pd md e, (race_id, pd) ∈ progress ∧ metadata.lookup race_id = some md ∧
        parse_race race_id pd md = .error e) := by
  rw [parse_results_eq_filterMap]
  constructor
  · intro r
    simp only [List.mem_filterMap]
    constructor
    · rintro ⟨⟨rid2, pd⟩, hmem, hf⟩
      dsimp only at hf
      cases hmd : metadata.lookup rid2 with
      | none => simp [hmd] at hf
      | some md =>
        simp only [hmd] at hf
        cases hpc : parse_race rid2 pd md with
        | ok r0 =>
          simp only [hpc, Option.some.injEq, Prod.mk.injEq] at hf
          obtain ⟨rfl, rfl⟩ := hf
          exact ⟨pd, md, hmem, hmd, hpc⟩
        | error e => simp [hpc] at hf
    · rintro ⟨pd, md, hmem, hmd, hok⟩
      refine ⟨(race_id, pd), hmem, ?_⟩
      simp only [hmd, hok]
  · simp only [List.mem_filterMap]
    constructor
    · rintro ⟨⟨rid2, pd⟩, hmem, hf⟩
      dsimp only at hf
      cases hmd : metadata.lookup rid2 with
      | none => simp [hmd] at hf
      | some md =>
        simp only [hmd] at hf
        cases hpc : parse_race rid2 pd md with
        | ok r0 => simp [hpc] at hf
        | error e =>
          simp only [hpc, Option.some.injEq] at hf
          subst hf
          exact ⟨pd, md, e, hmem, hmd, hpc⟩
    · rintro ⟨pd, md, e, hmem, hmd, herr⟩
      refine ⟨(race_id, pd), hmem, ?_⟩
      simp only [hmd, herr]

/-- Appending to a `defaultdict(list)` bucket grows the total size by one. -/
theorem addToCategory_sum (cats : List (String × List RaceRecord)) (label : String)
    (race : RaceRecord) :
    ((addToCategory cats label race).map (fun c => c.2.length)).sum =
      (cats.map (fun c => c.2.length)).sum + 1 := by
  induction cats with
  | nil => simp [addToCategory]
  | cons hd tl ih =>
    obtain ⟨l, rs⟩ := hd
    by_cases h : l = label
    · simp [addToCategory, h]
      omega
    · simp [addToCategory, h, ih]
      omega

/-- The bucket labels after an append: the old labels, plus the new label
when it was absent. -/
theorem addToCategory_keys_mem (cats : List (String × List RaceRecord)) (label : String)
    (race : RaceRecord) (k : String) :
    k ∈ (addToCategory cats label race).map Prod.fst ↔
      k ∈ cats.map Prod.fst ∨ k = label := by
  induction cats with
  | nil => simp [addToCategory]
  | cons hd tl ih =>
    obtain ⟨l, rs⟩ := hd
    by_cases h : l = label
    · subst h
      simp [addToCategory]
      tauto
    · simp [addToCategory, h, ih]
      tauto

/-- Appending to a bucket keeps labels distinct. -/
theorem addToCategory_keys_nodup (cats : List (String × List RaceRecord)) (label : String)
    (race : RaceRecord) (h : (cats.map Prod.fst).Nodup) :
    ((addToCategory cats label race).map Prod.fst).Nodup := by
  induction cats with
  | nil => simp [addToCategory]
  | cons hd tl ih =>
    obtain ⟨l, rs⟩ := hd
    simp only [List.map_cons, List.nodup_cons] at h
    by_cases heq : l = label
    · subst heq
      simpa [addToCategory] using h
    · simp only [addToCategory, heq, if_false, List.map_cons, List.nodup_cons]
      refine ⟨?_, ih h.2⟩
      rw [addToCategory_keys_mem]
      rintro (hin | rfl)
      · exact h.1 hin
      · exact heq rfl

/-- Appending a race whose category is the bucket label keeps every bucket
label-consistent. -/
theorem addToCategory_content (cats : List (String × List RaceRecord)) (label : String)
    (race : RaceRecord)
    (hinv : ∀ p ∈ cats, ∀ x ∈ p.2, categoryOf x = p.1)
    (hr : categoryOf race = label) :
    ∀ p ∈ addToCategory cats label race, ∀ x ∈ p.2, categoryOf x = p.1 := by
  induction cats with
  | nil =>
    intro p hp x hx
    simp only [addToCategory, List.mem_singleton] at hp
    subst hp
    simp only [List.mem_singleton] at hx
    subst hx
    exact hr
  | cons hd tl ih =>
    obtain ⟨l, rs⟩ := hd
    intro p hp x hx
    by_cases heq : l = label
    · subst heq
      simp only [addToCategory, if_true] at hp
      rcases List.mem_cons.mp hp with rfl | hp2
      · rcases List.mem_append.mp hx with hx1 | hx2
        · exact hinv (l, rs) (List.mem_cons_self _ _) x hx1
        · simp only [List.mem_singleton] at hx2
          subst hx2
          exact hr
      · exact hinv p (List.mem_cons_of_mem _ hp2) x hx
    · simp only [addToCategory, heq, if_false] at hp
      rcases List.mem_cons.mp hp with rfl | hp2
      · exact hinv (l, rs) (List.mem_cons_self _ _) x hx
      · exact ih (fun q hq => hinv q (List.mem_cons_of_mem _ hq)) p hp2 x hx

/-- The branch dispatch inside `categorize_races` is `addToCategory` at the
record's category label. -/
theorem categorize_step_eq (cats : List (String × List RaceRecord)) (race : RaceRecord) :
    (match race with
      | .ballotMeasure _ _ _ _ _ _ => addToCategory cats "Ballot Measures" race
      | .electionRace _ office_id _ _ _ _ =>
        if office_id.isStrEq "P" then addToCategory cats "Presidential" race
        else if office_id.isStrEq "S" then addToCategory cats "Senate" race
        else if office_id.isStrEq "H" then addToCategory cats "House" race
        else if office_id.isStrEq "G" then addToCategory cats "Governor" race
        else addToCategory cats "Other" race) =
      addToCategory cats (categoryOf race) race := by
  cases race with
  | ballotMeasure b d c s dg cs => rfl
  | electionRace b oid cs s1 s2 s3 =>
    simp only [categoryOf]
    by_cases h1 : oid.isStrEq "P" = true
    · simp [h1]
    · simp only [Bool.not_eq_true] at h1
      by_cases h2 : oid.isStrEq "S" = true
      · simp [h1, h2]
      · simp only [Bool.not_eq_true] at h2
        by_cases h3 : oid.isStrEq "H" = true
        · simp [h1, h2, h3]
        · simp only [Bool.not_eq_true] at h3
          by_cases h4 : oid.isStrEq "G" = true
          · simp [h1, h2, h3, h4]
          · simp only [Bool.not_eq_true] at h4
            simp [h1, h2, h3, h4]

/-- `categorize_races` is the fold of `addToCategory` over each record's
category. -/
theorem categorize_races_eq (races : List RaceRecord) :
    categorize_races races =
      races.foldl (fun cats race => addToCategory cats (categoryOf race) race) [] := by
  simp only [categorize_races]
  congr 1
  funext cats race
  exact categorize_step_eq cats race

/-- Invariants of the categorizing fold, over any starting accumulator. -/
theorem categorize_fold_inv (races : List RaceRecord) :
    ∀ (cats : List (String × List RaceRecord)),
      (∀ p ∈ cats, ∀ x ∈ p.2, categoryOf x = p.1) →
      ((cats.map Prod.fst).Nodup) →
      (∀ p ∈ races.foldl (fun cats race => addToCategory cats (categoryOf race) race) cats,
        ∀ x ∈ p.2, categoryOf x = p.1) ∧
      (((races.foldl (fun cats race => addToCategory cats (categoryOf race) race) cats).map
        Prod.fst).Nodup) ∧
      ((races.foldl (fun cats race => addToCategory cats (categoryOf race) race) cats).map
        (fun c => c.2.length)).sum = (cats.map (fun c => c.2.length)).sum + races.length := by
  induction races with
  | nil => intro cats h1 h2; exact ⟨h1, h2, by simp⟩
  | cons race rest ih =>
    intro cats h1 h2
    simp only [List.foldl_cons]
    obtain ⟨g1, g2, g3⟩ := ih (addToCategory cats (categoryOf race) race)
      (addToCategory_content cats (categoryOf race) race h1 rfl)
      (addToCategory_keys_nodup cats (categoryOf race) race h2)
    refine ⟨g1, g2, ?_⟩
    rw [g3, addToCategory_sum]
    simp only [List.length_cons]
    omega

/-- C5: every successfully reconciled race lands in exactly one category
bucket — the one named by its record's variant and office id (BallotMeasure
to "Ballot Measures"; office id P, S, H, G to "Presidential", "Senate",
"House", "Governor"; anything else to "Other") — and the bucket sizes sum to
the number of successfully reconciled races. -/
theorem c5_categories_partition_reconciled_races
    (progress metadata : List (String × JSON)) :
    (∀ p ∈ categorize_races (((parse_results progress metadata).1).map Prod.snd),
      ∀ race ∈ p.2, categoryOf race = p.1) ∧
    ((categorize_races (((parse_results progress metadata).1).map Prod.snd)).map
      Prod.fst).Nodup ∧
    ((categorize_races (((parse_results progress metadata).1).map Prod.snd)).map
      (fun c => c.2.length)).sum = ((parse_results progress metadata).1).length := by
  rw [categorize_races_eq]
  obtain ⟨g1, g2, g3⟩ :=
    categorize_fold_inv (((parse_results progress metadata).1).map Prod.snd) []
      (by simp) (by simp)
  refine ⟨g1, g2, ?_⟩
  rw [g3]
  simp

/-- The classifier's first check is `claimed_signal1`. -/
theorem claimed_signal1_eq (fs : List (String × JSON)) :
    claimed_signal1 (.obj fs) =
      ((fs.lookup "suppOfficeID").getD JSON.null).isStrEq "IME" := by
  simp only [claimed_signal1, JSON.lookupKey]
  cases hx : fs.lookup "suppOfficeID" with
  | none => rfl
  | some v => cases v <;> rfl

/-- A successful run of the classifier's name comprehension lower-cases each
candidate's "last" value (default empty). -/
theorem names_mapExcept_ok (cvals : List JSON) (names : List String)
    (h : mapExcept (fun c => do
        let lastVal ← pyGet c "last" (JSON.str "")
        pyLower lastVal) cvals = .ok names) :
    names = cvals.map claimed_last_name := by
  induction cvals generalizing names with
  | nil =>
    simp only [mapExcept] at h
    cases h
    rfl
  | cons c rest ih =>
    simp only [mapExcept] at h
    obtain ⟨y, hy, hrest⟩ := except_bind_ok.mp h
    obtain ⟨ys, hys, hcons⟩ := except_bind_ok.mp hrest
    cases hcons
    rw [List.map_cons]
    have hyval : y = claimed_last_name c := by
      cases c with
      | obj cf =>
        simp only [pyGet, except_bind_ok_red] at hy
        cases hl : cf.lookup "last" with
        | none =>
          rw [hl] at hy
          simp only [Option.getD_none, pyLower] at hy
          cases hy
          simp [claimed_last_name, hl, strLower]
        | some lv =>
          rw [hl] at hy
          simp only [Option.getD_some] at hy
          cases lv with
          | str t =>
            simp only [pyLower] at hy
            cases hy
            simp [claimed_last_name, hl]
          | null => exact absurd hy (by simp [pyLower])
          | bool b2 => exact absurd hy (by simp [pyLower])
          | num q2 => exact absurd hy (by simp [pyLower])
          | arr es => exact absurd hy (by simp [pyLower])
          | obj ofs => exact absurd hy (by simp [pyLower])
      | null => simp [pyGet, except_bind_error_red] at hy
      | bool b2 => simp [pyGet, except_bind_error_red] at hy
      | num q => simp [pyGet, except_bind_error_red] at hy
      | str s => simp [pyGet, except_bind_error_red] at hy
      | arr elems => simp [pyGet, except_bind_error_red] at hy
    rw [hyval, ih ys hys]

/-- The classifier's candidate-name stage returns exactly
`claimed_signal3`. -/
theorem c1_candidates_stage (fs : List (String × JSON)) (b : Bool)
    (h : (do
        let candidatesVal ← pyGet (JSON.obj fs) "candidates" (JSON.obj [])
        let candidates ← pyValues candidatesVal
        let candidate_names ← mapExcept (fun c => do
          let lastVal ← pyGet c "last" (JSON.str "")
          pyLower lastVal) candidates
        if (["yes", "no"].all fun s => candidate_names.contains s) ||
           (["for", "against"].all fun s => candidate_names.contains s) then
          pure true
        else
          pure false : Except PyExc Bool) = .ok b) :
    b = claimed_signal3 (.obj fs) := by
  simp only [pyGet, except_bind_ok_red] at h
  cases hc : fs.lookup "candidates" with
  | none =>
    rw [hc] at h
    simp only [Option.getD_none, pyValues, except_bind_ok_red, mapExcept] at h
    have hb := except_pure_ok.mp h
    cases hb
    simp [claimed_signal3, JSON.lookupKey, hc]
  | some cv =>
    rw [hc] at h
    simp only [Option.getD_some] at h
    cases cv with
    | obj cs =>
      simp only [pyValues, except_bind_ok_red] at h
      obtain ⟨names, hn, hif⟩ := except_bind_ok.mp h
      have hnames := names_mapExcept_ok (cs.map Prod.snd) names hn
      subst hnames
      have hmm : (cs.map Prod.snd).map claimed_last_name =
          cs.map (fun kv => claimed_last_name kv.2) := by
        rw [List.map_map]
        rfl
      have hcs3 : claimed_signal3 (.obj fs) =
          ((["yes", "no"].all fun s =>
              ((cs.map Prod.snd).map claimed_last_name).contains s) ||
           (["for", "against"].all fun s =>
              ((cs.map Prod.snd).map claimed_last_name).contains s)) := by
        simp [claimed_signal3, JSON.lookupKey, hc, hmm]
      by_cases h3 : ((["yes", "no"].all fun s =>
          ((cs.map Prod.snd).map claimed_last_name).contains s) ||
        (["for", "against"].all fun s =>
          ((cs.map Prod.snd).map claimed_last_name).contains s)) = true
      · rw [if_pos h3] at hif
        have hb := except_pure_ok.mp hif
        cases hb
        rw [hcs3, h3]
      · rw [if_neg h3] at hif
        have hb := except_pure_ok.mp hif
        cases hb
        rw [hcs3]
        exact (Bool.eq_false_iff.mpr h3).symm
    | null => simp [pyValues, except_bind_error_red] at h
    | bool b2 => simp [pyValues, except_bind_error_red] at h
    | num q => simp [pyValues, except_bind_error_red] at h
    | str s => simp [pyValues, except_bind_error_red] at h
    | arr elems => simp [pyValues, except_bind_error_red] at h

/-- C1: whenever the classifier returns a verdict, it is true exactly when
one of the three spec signals holds: supplemental office code "IME", a
ballot-measure keyword token in the whitespace-split office name, or
candidate last names covering yes/no or for/against (lower-cased). -/
theorem c1_classifier_true_iff_signals (meta : JSON) (b : Bool)
    (h : is_ballot_measure meta = .ok b) :
    b = (claimed_signal1 meta || claimed_signal2 meta || claimed_signal3 meta) := by
  cases meta with
  | obj fs =>
    simp only [is_ballot_measure, pyGet, except_bind_ok_red] at h
    by_cases h1 : ((fs.lookup "suppOfficeID").getD JSON.null).isStrEq "IME" = true
    · rw [if_pos h1] at h
      have hb := except_pure_ok.mp h
      cases hb
      simp [claimed_signal1_eq, h1]
    · rw [if_neg h1] at h
      have hcs1 : claimed_signal1 (.obj fs) = false := by
        rw [claimed_signal1_eq]
        exact Bool.eq_false_iff.mpr h1
      cases hon : fs.lookup "officeName" with
      | none =>
        rw [hon] at h
        simp only [Option.getD_none, pySplitWs, except_bind_ok_red] at h
        by_cases h2 : (splitWsAux (String.data "") []).any
            (fun term => BALLOT_MEASURE_KEYWORDS.contains term) = true
        · exact absurd h2 (by decide)
        · rw [if_neg h2] at h
          have hcs2 : claimed_signal2 (.obj fs) = false := by
            simp [claimed_signal2, JSON.lookupKey, hon]
          have hb3 := c1_candidates_stage fs b h
          rw [hb3, hcs1, hcs2]
          simp
      | some onv =>
        rw [hon] at h
        simp only [Option.getD_some] at h
        cases onv with
        | str s =>
          simp only [pySplitWs, except_bind_ok_red] at h
          by_cases h2 : (splitWsAux s.data []).any
              (fun term => BALLOT_MEASURE_KEYWORDS.contains term) = true
          · rw [if_pos h2] at h
            have hb := except_pure_ok.mp h
            cases hb
            have hcs2 : claimed_signal2 (.obj fs) = true := by
              simp only [claimed_signal2, JSON.lookupKey, hon]
              exact h2
            simp [hcs2]
          · rw [if_neg h2] at h
            have hcs2 : claimed_signal2 (.obj fs) = false := by
              simp only [claimed_signal2, JSON.lookupKey, hon]
              exact Bool.eq_false_iff.mpr h2
            have hb3 := c1_candidates_stage fs b h
            rw [hb3, hcs1, hcs2]
            simp
        | null => simp [pySplitWs, except_bind_error_red] at h
        | bool b2 => simp [pySplitWs, except_bind_error_red] at h
        | num q => simp [pySplitWs, except_bind_error_red] at h
        | arr elems => simp [pySplitWs, except_bind_error_red] at h
        | obj ofs => simp [pySplitWs, except_bind_error_red] at h
  | null => simp [is_ballot_measure, pyGet, except_bind_error_red] at h
  | bool b2 => simp [is_ballot_measure, pyGet, except_bind_error_red] at h
  | num q => simp [is_ballot_measure, pyGet, except_bind_error_red] at h
  | str s => simp [is_ballot_measure, pyGet, except_bind_error_red] at h
  | arr elems => simp [is_ballot_measure, pyGet, except_bind_error_red] at h

/-- C1 witness: office name "Amendment 4" classifies true, and Yes/No
candidates classify true under the office name "Governor". -/
theorem c1_classifier_true_iff_signals_witness :
    (true = (claimed_signal1 exMetaMeasure || claimed_signal2 exMetaMeasure ||
      claimed_signal3 exMetaMeasure)) ∧
    (true = (claimed_signal1 exMetaYesNo || claimed_signal2 exMetaYesNo ||
      claimed_signal3 exMetaYesNo)) :=
  ⟨c1_classifier_true_iff_signals exMetaMeasure true rfl,
   c1_classifier_true_iff_signals exMetaYesNo true rfl⟩

/-- Appending an entry under a different key changes no lookup. -/
theorem lookup_append_singleton_ne (fs : List (String × JSON)) (k k2 : String) (v : JSON)
    (hne : (k == k2) = false) :
    List.lookup k (fs ++ [(k2, v)]) = fs.lookup k := by
  induction fs with
  | nil => simp [List.lookup, hne]
  | cons hd tl ih =>
    obtain ⟨a, b⟩ := hd
    simp only [List.cons_append, List.lookup]
    cases hka : (k == a) with
    | true => rfl
    | false => exact ih

/-- Appending an entry under an absent key makes its lookup hit it. -/
theorem lookup_append_singleton_self (fs : List (String × JSON)) (k : String) (v : JSON)
    (h : fs.lookup k = none) :
    List.lookup k (fs ++ [(k, v)]) = some v := by
  induction fs with
  | nil => simp [List.lookup]
  | cons hd tl ih =>
    obtain ⟨a, b⟩ := hd
    cases hka : (k == a) with
    | true =>
      exfalso
      simp only [List.lookup, hka] at h
      exact Option.noConfusion h
    | false =>
      simp only [List.cons_append, List.lookup, hka]
      apply ih
      simp only [List.lookup, hka] at h
      exact h

/-- The classifier reads its metadata only through the three `.get` lookups:
two field lists agreeing on them classify identically. -/
theorem is_ballot_measure_congr (fs gs : List (String × JSON))
    (h1 : (fs.lookup "suppOfficeID").getD JSON.null =
          (gs.lookup "suppOfficeID").getD JSON.null)
    (h2 : (fs.lookup "officeName").getD (JSON.str "") =
          (gs.lookup "officeName").getD (JSON.str ""))
    (h3 : (fs.lookup "candidates").getD (JSON.obj []) =
          (gs.lookup "candidates").getD (JSON.obj [])) :
    is_ballot_measure (.obj fs) = is_ballot_measure (.obj gs) := by
  simp only [is_ballot_measure, pyGet, except_bind_ok_red]
  rw [h1, h2, h3]

/-- C7: the classifier never fails on missing keys: an absent office-name key
behaves as the empty office name, an absent candidate-list key as the empty
candidate mapping, and with both absent it returns a verdict — false unless
the supplemental office code says "IME" — rather than raising. -/
theorem c7_classifier_defaults_missing_keys (fs : List (String × JSON)) :
    (fs.lookup "officeName" = none →
      is_ballot_measure (.obj fs) =
        is_ballot_measure (.obj (fs ++ [("officeName", .str "")]))) ∧
    (fs.lookup "candidates" = none →
      is_ballot_measure (.obj fs) =
        is_ballot_measure (.obj (fs ++ [("candidates", .obj [])]))) ∧
    (fs.lookup "officeName" = none → fs.lookup "candidates" = none →
      is_ballot_measure (.obj fs) = .ok (claimed_signal1 (.obj fs))) := by
  refine ⟨?_, ?_, ?_⟩
  · intro ho
    apply is_ballot_measure_congr
    · rw [lookup_append_singleton_ne fs "suppOfficeID" "officeName" (.str "") (by decide)]
    · rw [lookup_append_singleton_self fs "officeName" (.str "") ho, ho]
      rfl
    · rw [lookup_append_singleton_ne fs "candidates" "officeName" (.str "") (by decide)]
  · intro hc
    apply is_ballot_measure_congr
    · rw [lookup_append_singleton_ne fs "suppOfficeID" "candidates" (.obj []) (by decide)]
    · rw [lookup_append_singleton_ne fs "officeName" "candidates" (.obj []) (by decide)]
    · rw [lookup_append_singleton_self fs "candidates" (.obj []) hc, hc]
      rfl
  · intro ho hc
    simp only [is_ballot_measure, pyGet, except_bind_ok_red, ho, hc, Option.getD_none]
    by_cases h1 : ((fs.lookup "suppOfficeID").getD JSON.null).isStrEq "IME" = true
    · rw [if_pos h1, claimed_signal1_eq, h1]
      rfl
    · rw [if_neg h1, claimed_signal1_eq, Bool.eq_false_iff.mpr h1]
      rfl
